import Mathlib

/-!
Verification of the Big Data Pipeline Simulator core.

Shallow embedding of `src/Big_Data_pipeline.py`: the `PipelineDAG` graph
model (networkx-backed node/edge store and the node-colour computation of
`draw`), the `SparkSim` staged transformation simulator, the Streamlit
orchestration layer's Next Stage dispatch, the configuration-fallback
logic, and the Max Value metric.
-/

/-- A DAG node: identifier paired with its optional `type` attribute.
`none` models a node implicitly created by `add_edge`, which carries no
`type` attribute in networkx. -/
abbrev DagNode := String × Option String

/-- The graph held by `PipelineDAG` (a `networkx.DiGraph`): a node store in
insertion order and a directed edge store. -/
structure PipelineDAG where
  nodes : List DagNode
  edges : List (String × String)
deriving DecidableEq

/-- The fresh `nx.DiGraph()` of `PipelineDAG.__init__`. -/
def PipelineDAG.empty : PipelineDAG := ⟨[], []⟩

/-- Node insertion semantics of `networkx.DiGraph.add_node`: inserting an
existing id overwrites its attributes in place; a new id is appended
(dict insertion order). -/
def addNodeList (ns : List DagNode) (i t : String) : List DagNode :=
  if ns.any (fun n => n.1 == i) then
    ns.map (fun n => if n.1 == i then (i, some t) else n)
  else
    ns ++ [(i, some t)]

/-- Source line 12: `PipelineDAG.add_node(node_id, node_type)`. -/
def PipelineDAG.add_node (g : PipelineDAG) (i t : String) : PipelineDAG :=
  { g with nodes := addNodeList g.nodes i t }

/-- Endpoint registration done by `networkx.DiGraph.add_edge`: an absent
endpoint is added as an attribute-less node. -/
def addEndpoint (ns : List DagNode) (i : String) : List DagNode :=
  if ns.any (fun n => n.1 == i) then ns else ns ++ [(i, none)]

/-- Source line 15: `PipelineDAG.add_edge(from_node, to_node)`; networkx
stores at most one directed edge per ordered pair. -/
def PipelineDAG.add_edge (g : PipelineDAG) (a b : String) : PipelineDAG :=
  { nodes := addEndpoint (addEndpoint g.nodes a) b,
    edges := if g.edges.contains (a, b) then g.edges else g.edges ++ [(a, b)] }

/-- Source line 28, the core of `PipelineDAG.draw`:
`node_colors = ['orange' if n == highlight else 'skyblue' for n in self.graph.nodes()]`. -/
def PipelineDAG.node_colors (g : PipelineDAG) (highlight : Option String) : List String :=
  g.nodes.map (fun n => if some n.1 = highlight then "orange" else "skyblue")

/-- The node identifiers of the graph, in store order. -/
def dagIds (g : PipelineDAG) : List String := g.nodes.map Prod.fst

/-- State of the `SparkSim` simulator (source lines 39-43): the original
seed snapshot, the working record collection, the stage counter and the
log. -/
structure SparkSim where
  original : List (String × Int)
  data : List (String × Int)
  stage : Nat
  logs : List String
deriving DecidableEq

/-- `SparkSim.__init__(data)`: `original = data`, `data = data.copy()`,
`stage = 0`, `logs = []`. -/
def SparkSim.init (data : List (String × Int)) : SparkSim :=
  { original := data, data := data, stage := 0, logs := [] }

/-- Source lines 45-48: `map` appends its log line, doubles every value and
increments the stage. -/
def SparkSim.map (s : SparkSim) : SparkSim :=
  { s with
    logs := s.logs ++ ["→ map: Multiplied each value by 2"],
    data := s.data.map (fun r => (r.1, r.2 * 2)),
    stage := s.stage + 1 }

/-- Source lines 50-53: `filter` appends its log line, drops records whose
key is `banana` and increments the stage. It is not gated on the stage. -/
def SparkSim.filter (s : SparkSim) : SparkSim :=
  { s with
    logs := s.logs ++ ["→ filter: Removed entries where key == banana"],
    data := s.data.filter (fun r => r.1 != "banana"),
    stage := s.stage + 1 }

/-- The `defaultdict(list)` grouping of `reduceByKey`: append `v` to the
bucket of key `k`, keys kept in first-seen order (Python dict insertion
order). -/
def groupAdd (acc : List (String × List Int)) (k : String) (v : Int) :
    List (String × List Int) :=
  match acc with
  | [] => [(k, [v])]
  | (k0, vs) :: rest =>
    if k0 == k then (k0, vs ++ [v]) :: rest
    else (k0, vs) :: groupAdd rest k v

/-- Source lines 55-61: `reduceByKey` appends its log line, groups the
records by key and sums each bucket, and increments the stage. -/
def SparkSim.reduceByKey (s : SparkSim) : SparkSim :=
  { s with
    logs := s.logs ++ ["→ reduceByKey: Summed values grouped by key"],
    data := (s.data.foldl (fun acc r => groupAdd acc r.1 r.2) []).map
      (fun g => (g.1, g.2.foldl (· + ·) 0)),
    stage := s.stage + 1 }

/-- Source lines 63-66: `reset` restores the data from the original
snapshot, zeroes the stage and clears the log. -/
def SparkSim.reset (s : SparkSim) : SparkSim :=
  { s with data := s.original, stage := 0, logs := [] }

/-- Source lines 130-136, the Next Stage button dispatch: run the
transformation selected by the current stage counter; at stage 3 or
beyond no branch fires and the state is returned unchanged. -/
def advance (s : SparkSim) : SparkSim :=
  if s.stage = 0 then s.map
  else if s.stage = 1 then s.filter
  else if s.stage = 2 then s.reduceByKey
  else s

/-- The default seed record collection (source lines 112-117). -/
def defaultSeed : List (String × Int) :=
  [("apple", 1), ("banana", 1), ("apple", 1), ("carrot", 1)]

/-- One entry of the `nodes` array of a configuration document. -/
structure NodeCfg where
  id : String
  type : String
deriving DecidableEq

/-- A parsed configuration document: `nodes` and `edges`. -/
structure PipelineCfg where
  nodes : List NodeCfg
  edges : List (String × String)
deriving DecidableEq

/-- The built-in default five-node pipeline (source lines 87-101). -/
def defaultPipeline : PipelineCfg :=
  { nodes := [⟨"read", "source"⟩, ⟨"map1", "transformation"⟩,
              ⟨"filter1", "transformation"⟩, ⟨"reduce1", "shuffle"⟩,
              ⟨"output", "sink"⟩],
    edges := [("read", "map1"), ("map1", "filter1"),
              ("filter1", "reduce1"), ("reduce1", "output")] }

/-- Source lines 77-101: the upload handler catches any parse exception and
leaves `pipeline = None`, and the `if not pipeline` guard then substitutes
the default. `none` models the malformed-document (parse failure) case. -/
def pipelineOf (parsed : Option PipelineCfg) : PipelineCfg :=
  match parsed with
  | none => defaultPipeline
  | some p => p

/-- Source lines 104-108: build the `PipelineDAG` from the configuration by
adding every node, then every edge. -/
def buildFromPipeline (p : PipelineCfg) : PipelineDAG :=
  let g := p.nodes.foldl (fun g n => g.add_node n.id n.type) PipelineDAG.empty
  p.edges.foldl (fun g e => g.add_edge e.1 e.2) g

/-- Source line 157: `max([v for (_, v) in sim.data], default=0)`. -/
def maxValue (data : List (String × Int)) : Int :=
  match data.map Prod.snd with
  | [] => 0
  | v :: vs => vs.foldl max v

/-- An operation on the simulator: one of the three transformation methods,
the orchestration layer's Next Stage dispatch, or `reset`. -/
inductive SimOp
  | mapOp | filterOp | reduceOp | advanceOp | resetOp
deriving DecidableEq

/-- Apply one simulator operation. -/
def applySimOp (s : SparkSim) : SimOp → SparkSim
  | .mapOp => s.map
  | .filterOp => s.filter
  | .reduceOp => s.reduceByKey
  | .advanceOp => advance s
  | .resetOp => s.reset

/-- Apply a sequence of simulator operations, left to right. -/
def applySimOps (s : SparkSim) : List SimOp → SparkSim
  | [] => s
  | op :: ops => applySimOps (applySimOp s op) ops

/-- A graph-construction operation: `add_node` or `add_edge`. -/
inductive DagOp
  | node (i t : String)
  | edge (a b : String)
deriving DecidableEq

/-- Apply one graph-construction operation. -/
def applyDagOp (g : PipelineDAG) : DagOp → PipelineDAG
  | .node i t => g.add_node i t
  | .edge a b => g.add_edge a b

/-- Apply a sequence of graph-construction operations, left to right. -/
def applyDagOps (g : PipelineDAG) : List DagOp → PipelineDAG
  | [] => g
  | op :: ops => applyDagOps (applyDagOp g op) ops

/-- A graph built from a node/edge configuration: the result of a sequence
of `add_node` and `add_edge` calls on the empty graph. -/
def buildDAG (ops : List DagOp) : PipelineDAG :=
  applyDagOps PipelineDAG.empty ops

/-- C2: on the default seed, map doubles every value, filter removes the
banana record, and reduceByKey leaves exactly apple 4 then carrot 2, in
first-seen key order. -/
theorem default_seed_pipeline_run :
    ((SparkSim.init defaultSeed).map).data
        = [("apple", 2), ("banana", 2), ("apple", 2), ("carrot", 2)]
    ∧ (((SparkSim.init defaultSeed).map).filter).data
        = [("apple", 2), ("apple", 2), ("carrot", 2)]
    ∧ ((((SparkSim.init defaultSeed).map).filter).reduceByKey).data
        = [("apple", 4), ("carrot", 2)] := by
  decide

/-- C5: invoking the Next Stage dispatch four times from the initial state
on the default seed leaves the record collection after the fourth call
unchanged compared to its value after the third call. -/
theorem advance_four_eq_three :
    (advance (advance (advance (advance (SparkSim.init defaultSeed))))).data
      = (advance (advance (advance (SparkSim.init defaultSeed)))).data := by
  decide

/-- C1 counterexample: calling `filter()` directly when the stage counter
is 0 (on the default seed) is not a no-op — the stage counter, the record
collection and the log all change. -/
theorem filter_at_stage_zero_mutates :
    ((SparkSim.init defaultSeed).filter).stage ≠ (SparkSim.init defaultSeed).stage
    ∧ ((SparkSim.init defaultSeed).filter).data ≠ (SparkSim.init defaultSeed).data
    ∧ ((SparkSim.init defaultSeed).filter).logs ≠ (SparkSim.init defaultSeed).logs := by
  decide

/-- No simulator operation writes the `original` field. -/
theorem applySimOp_original (s : SparkSim) (op : SimOp) :
    (applySimOp s op).original = s.original := by
  cases op <;> first
    | rfl
    | (simp only [applySimOp, advance]; split_ifs <;> rfl)

/-- No sequence of simulator operations writes the `original` field. -/
theorem applySimOps_original (s : SparkSim) (ops : List SimOp) :
    (applySimOps s ops).original = s.original := by
  induction ops generalizing s with
  | nil => rfl
  | cons op ops ih =>
    calc (applySimOps (applySimOp s op) ops).original
        = (applySimOp s op).original := ih (applySimOp s op)
      _ = s.original := applySimOp_original s op

/-- C10: every transformation call leaves the stored original seed snapshot
unchanged; for every seed and every sequence of simulator operations, the
snapshot consulted by `reset` equals the seed provided at construction. -/
theorem original_snapshot_frame (seed : List (String × Int)) (ops : List SimOp) :
    (applySimOps (SparkSim.init seed) ops).original = seed
    ∧ ∀ s : SparkSim, (s.map).original = s.original
        ∧ (s.filter).original = s.original
        ∧ (s.reduceByKey).original = s.original :=
  ⟨applySimOps_original (SparkSim.init seed) ops, fun _ => ⟨rfl, rfl, rfl⟩⟩

/-- C3: after any sequence of prior operations, `reset` restores the record
collection to the originally-provided seed, sets the stage counter to 0 and
clears the log. -/
theorem reset_restores_seed (seed : List (String × Int)) (ops : List SimOp) :
    ((applySimOps (SparkSim.init seed) ops).reset).data = seed
    ∧ ((applySimOps (SparkSim.init seed) ops).reset).stage = 0
    ∧ ((applySimOps (SparkSim.init seed) ops).reset).logs = [] :=
  ⟨applySimOps_original (SparkSim.init seed) ops, rfl, rfl⟩

/-- C7: the stage counter starts at 0; each transformation call increments
it by exactly 1 and appends exactly one log entry; and the counter is
non-decreasing under every operation except `reset`. -/
theorem stage_counter_invariants :
    (∀ d : List (String × Int), (SparkSim.init d).stage = 0)
    ∧ (∀ s : SparkSim,
        (s.map).stage = s.stage + 1 ∧ (s.map).logs.length = s.logs.length + 1
        ∧ (s.filter).stage = s.stage + 1 ∧ (s.filter).logs.length = s.logs.length + 1
        ∧ (s.reduceByKey).stage = s.stage + 1
        ∧ (s.reduceByKey).logs.length = s.logs.length + 1)
    ∧ (∀ s : SparkSim, s.stage ≤ (s.map).stage ∧ s.stage ≤ (s.filter).stage
        ∧ s.stage ≤ (s.reduceByKey).stage ∧ s.stage ≤ (advance s).stage) := by
  refine ⟨fun _ => rfl, fun s => ?_, fun s => ?_⟩
  · simp [SparkSim.map, SparkSim.filter, SparkSim.reduceByKey]
  · refine ⟨Nat.le_succ _, Nat.le_succ _, Nat.le_succ _, ?_⟩
    simp only [advance]
    split_ifs <;> simp [SparkSim.map, SparkSim.filter, SparkSim.reduceByKey]

/-- C1 (amended): through the Next Stage dispatch, any invocation when the
stage counter is 3 or more is a no-op — the whole simulator state (stage,
data and log) is unchanged. -/
theorem advance_terminal_noop (s : SparkSim) (h : 3 ≤ s.stage) : advance s = s := by
  simp only [advance]
  split_ifs with h0 h1 h2
  · exact absurd h0 (by omega)
  · exact absurd h1 (by omega)
  · exact absurd h2 (by omega)
  · rfl

/-- Witness for `advance_terminal_noop` at a concrete terminal state. -/
theorem advance_terminal_noop_witness :
    3 ≤ (SparkSim.mk defaultSeed [("apple", 4), ("carrot", 2)] 3 []).stage
    ∧ advance (SparkSim.mk defaultSeed [("apple", 4), ("carrot", 2)] 3 [])
        = SparkSim.mk defaultSeed [("apple", 4), ("carrot", 2)] 3 [] :=
  ⟨by decide, advance_terminal_noop _ (by decide)⟩

/-- A node id is hit by the `any` membership test iff it occurs among the
stored ids. -/
theorem any_id_eq_mem (ns : List DagNode) (i : String) :
    (ns.any (fun n => n.1 == i) = true) ↔ i ∈ ns.map Prod.fst := by
  simp [List.any_eq_true, List.mem_map]

/-- `add_node` leaves the id list unchanged when the id is present, and
appends it otherwise. -/
theorem ids_addNodeList (ns : List DagNode) (i t : String) :
    (addNodeList ns i t).map Prod.fst =
      if i ∈ ns.map Prod.fst then ns.map Prod.fst else ns.map Prod.fst ++ [i] := by
  by_cases h : ns.any (fun n => n.1 == i) = true
  · rw [addNodeList, if_pos h, if_pos ((any_id_eq_mem ns i).mp h), List.map_map]
    apply List.map_congr_left
    intro n _
    by_cases hni : n.1 == i
    · simp only [Function.comp, hni, if_pos]
      exact (eq_of_beq hni).symm
    · simp only [Function.comp, hni, if_neg, Bool.false_eq_true, not_false_iff]
  · rw [addNodeList, if_neg h,
      if_neg (fun hm => h ((any_id_eq_mem ns i).mpr hm)), List.map_append]
    rfl

/-- `addEndpoint` leaves the id list unchanged when the id is present, and
appends it otherwise. -/
theorem ids_addEndpoint (ns : List DagNode) (i : String) :
    (addEndpoint ns i).map Prod.fst =
      if i ∈ ns.map Prod.fst then ns.map Prod.fst else ns.map Prod.fst ++ [i] := by
  by_cases h : ns.any (fun n => n.1 == i) = true
  · rw [addEndpoint, if_pos h, if_pos ((any_id_eq_mem ns i).mp h)]
  · rw [addEndpoint, if_neg h,
      if_neg (fun hm => h ((any_id_eq_mem ns i).mpr hm)), List.map_append]
    rfl

/-- Appending an id absent from a duplicate-free id list keeps it
duplicate-free. -/
theorem nodup_append_new (l : List String) (i : String)
    (hd : l.Nodup) (hm : i ∉ l) : (l ++ [i]).Nodup := by
  simp [List.nodup_append, hd, hm]

/-- `add_node` preserves uniqueness of node ids. -/
theorem nodup_ids_addNodeList (ns : List DagNode) (i t : String)
    (h : (ns.map Prod.fst).Nodup) : ((addNodeList ns i t).map Prod.fst).Nodup := by
  rw [ids_addNodeList]
  split_ifs with hm
  · exact h
  · exact nodup_append_new _ _ h hm

/-- `addEndpoint` preserves uniqueness of node ids. -/
theorem nodup_ids_addEndpoint (ns : List DagNode) (i : String)
    (h : (ns.map Prod.fst).Nodup) : ((addEndpoint ns i).map Prod.fst).Nodup := by
  rw [ids_addEndpoint]
  split_ifs with hm
  · exact h
  · exact nodup_append_new _ _ h hm

/-- Every single graph-construction operation preserves uniqueness of node
ids. -/
theorem nodup_dagIds_applyDagOp (g : PipelineDAG) (op : DagOp)
    (h : (dagIds g).Nodup) : (dagIds (applyDagOp g op)).Nodup := by
  cases op with
  | node i t => exact nodup_ids_addNodeList g.nodes i t h
  | edge a b =>
    exact nodup_ids_addEndpoint _ b (nodup_ids_addEndpoint g.nodes a h)

/-- Every sequence of graph-construction operations preserves uniqueness of
node ids. -/
theorem nodup_dagIds_applyDagOps (g : PipelineDAG) (ops : List DagOp)
    (h : (dagIds g).Nodup) : (dagIds (applyDagOps g ops)).Nodup := by
  induction ops generalizing g with
  | nil => exact h
  | cons op ops ih => exact ih (applyDagOp g op) (nodup_dagIds_applyDagOp g op h)

/-- Node ids of a graph built from any configuration are unique. -/
theorem buildDAG_nodup (ops : List DagOp) : (dagIds (buildDAG ops)).Nodup :=
  nodup_dagIds_applyDagOps PipelineDAG.empty ops List.nodup_nil

/-- The number of orange cells in the colour list equals the number of
occurrences of the highlight id among the node ids. -/
theorem count_orange (ns : List DagNode) (hid : String) :
    ((ns.map (fun n => if some n.1 = some hid then "orange" else "skyblue")).count
        "orange")
      = (ns.map Prod.fst).count hid := by
  induction ns with
  | nil => rfl
  | cons n ns ih =>
    rw [List.map_cons, List.map_cons, List.count_cons, List.count_cons, ih]
    by_cases h : n.1 = hid
    · simp [h]
    · simp [h]

/-- C6: for every graph built from a node/edge configuration, the colour
list of `draw` marks exactly one node orange when the highlight id is an
existing node id, and zero nodes when it matches no node id; every other
cell is the uniform neutral skyblue. -/
theorem draw_highlight_exactly_one (ops : List DagOp) (hid : String) :
    (((buildDAG ops).node_colors (some hid)).count "orange"
        = if hid ∈ dagIds (buildDAG ops) then 1 else 0)
    ∧ ∀ c ∈ (buildDAG ops).node_colors (some hid), c = "orange" ∨ c = "skyblue" := by
  constructor
  · rw [PipelineDAG.node_colors, count_orange]
    split_ifs with hm
    · exact List.count_eq_one_of_mem (buildDAG_nodup ops) hm
    · exact List.count_eq_zero_of_not_mem hm
  · intro c hc
    rw [PipelineDAG.node_colors] at hc
    obtain ⟨n, -, rfl⟩ := List.mem_map.mp hc
    split_ifs <;> simp

/-- On a graph with unique node ids, `add_node` leaves exactly one node
carrying the given id, holding the given type. -/
theorem filter_addNodeList (ns : List DagNode) (i t : String)
    (h : (ns.map Prod.fst).Nodup) :
    (addNodeList ns i t).filter (fun n => n.1 == i) = [(i, some t)] := by
  by_cases hany : ns.any (fun n => n.1 == i) = true
  · rw [addNodeList, if_pos hany, List.filter_map,
      List.filter_congr (fun n _ => ?_)]
    · have hcnt : (ns.map Prod.fst).count i = 1 :=
        List.count_eq_one_of_mem h ((any_id_eq_mem ns i).mp hany)
      rw [List.count_eq_countP, List.countP_map] at hcnt
      have hlen : ((ns.filter (fun n => n.1 == i)).map
          (fun n => if n.1 == i then (i, some t) else n)).length = 1 := by
        rw [List.length_map, ← List.countP_eq_length_filter]
        exact hcnt
      obtain ⟨a, ha⟩ := List.length_eq_one.mp hlen
      rw [ha]
      have hma : a ∈ (ns.filter (fun n => n.1 == i)).map
          (fun n => if n.1 == i then (i, some t) else n) := by
        rw [ha]; exact List.mem_singleton.mpr rfl
      obtain ⟨n, hn, rfl⟩ := List.mem_map.mp hma
      have hni : (n.1 == i) = true := (List.mem_filter.mp hn).2
      simp [hni]
    · show ((if n.1 == i then ((i : String), some t) else n).1 == i) = (n.1 == i)
      by_cases hni : (n.1 == i) = true
      · simp [hni]
      · simp [hni]
  · rw [addNodeList, if_neg hany, List.filter_append]
    have h1 : ns.filter (fun n => n.1 == i) = [] :=
      List.filter_eq_nil_iff.mpr
        (fun a ha hpa => hany (List.any_eq_true.mpr ⟨a, ha, hpa⟩))
    simp [h1]

/-- C8: re-adding a node id on any built graph overwrites the type rather
than adding a duplicate — exactly one node of that id remains, with the
second type. -/
theorem add_node_same_id_overwrites (ops : List DagOp) (i t1 t2 : String) :
    (((buildDAG ops).add_node i t1).add_node i t2).nodes.filter
        (fun n => n.1 == i) = [(i, some t2)] := by
  have h2 : ((((buildDAG ops).add_node i t1).nodes).map Prod.fst).Nodup :=
    nodup_ids_addNodeList _ i t1 (buildDAG_nodup ops)
  exact filter_addNodeList _ i t2 h2

/-- The seed of a left fold by `max` never exceeds the fold's result. -/
theorem le_foldl_max (v : Int) (vs : List Int) : v ≤ vs.foldl max v := by
  induction vs generalizing v with
  | nil => exact le_refl v
  | cons w ws ih => exact le_trans (le_max_left v w) (ih (max v w))

/-- Every list element is bounded by the fold of the list by `max`. -/
theorem mem_le_foldl_max (v : Int) (vs : List Int) :
    ∀ x ∈ vs, x ≤ vs.foldl max v := by
  induction vs generalizing v with
  | nil => intro x hx; cases hx
  | cons w ws ih =>
    intro x hx
    rcases List.mem_cons.mp hx with h | h
    · subst h
      exact le_trans (le_max_right v x) (le_foldl_max (max v x) ws)
    · exact ih (max v w) x h

/-- The fold of a list by `max` is the seed or one of the elements. -/
theorem foldl_max_mem (v : Int) (vs : List Int) :
    vs.foldl max v = v ∨ vs.foldl max v ∈ vs := by
  induction vs generalizing v with
  | nil => exact Or.inl rfl
  | cons w ws ih =>
    rcases ih (max v w) with h | h
    · rcases max_choice v w with hm | hm
      · exact Or.inl (by rw [List.foldl_cons, h, hm])
      · refine Or.inr ?_
        rw [List.foldl_cons, h, hm]
        exact List.mem_cons_self w ws
    · exact Or.inr (List.mem_cons_of_mem w h)

/-- C9: in the terminal state, the Max Value metric reports 0 on an empty
record collection instead of failing, and on a non-empty collection it
reports the maximum value among the records. -/
theorem max_value_metric (s : SparkSim) (_h3 : 3 ≤ s.stage) :
    (s.data = [] → maxValue s.data = 0)
    ∧ (s.data ≠ [] →
        maxValue s.data ∈ s.data.map Prod.snd
        ∧ ∀ v ∈ s.data.map Prod.snd, v ≤ maxValue s.data) := by
  constructor
  · intro h
    rw [h]
    rfl
  · intro h
    rcases hl : s.data.map Prod.snd with - | ⟨v, vs⟩
    · exact absurd (List.map_eq_nil_iff.mp hl) h
    · have hmv : maxValue s.data = vs.foldl max v := by
        rw [maxValue, hl]
      constructor
      · rw [hmv]
        rcases foldl_max_mem v vs with hm | hm
        · rw [hm]; exact List.mem_cons_self v vs
        · exact List.mem_cons_of_mem v hm
      · intro x hx
        rw [hmv]
        rcases List.mem_cons.mp hx with hxe | hxm
        · subst hxe; exact le_foldl_max x vs
        · exact mem_le_foldl_max v vs x hxm

/-- Witness for `max_value_metric` at a concrete terminal state holding the
fully reduced default data. -/
theorem max_value_metric_witness :
    (3 ≤ (SparkSim.mk defaultSeed [("apple", 4), ("carrot", 2)] 3 []).stage)
    ∧ ((SparkSim.mk defaultSeed [("apple", 4), ("carrot", 2)] 3 []).data = [] →
        maxValue (SparkSim.mk defaultSeed [("apple", 4), ("carrot", 2)] 3 []).data = 0)
    ∧ ((SparkSim.mk defaultSeed [("apple", 4), ("carrot", 2)] 3 []).data ≠ [] →
        maxValue (SparkSim.mk defaultSeed [("apple", 4), ("carrot", 2)] 3 []).data
          ∈ (SparkSim.mk defaultSeed [("apple", 4), ("carrot", 2)] 3 []).data.map Prod.snd
        ∧ ∀ v ∈ (SparkSim.mk defaultSeed [("apple", 4), ("carrot", 2)] 3 []).data.map
            Prod.snd,
            v ≤ maxValue (SparkSim.mk defaultSeed [("apple", 4), ("carrot", 2)] 3 []).data) :=
  ⟨by decide,
   (max_value_metric (SparkSim.mk defaultSeed [("apple", 4), ("carrot", 2)] 3 [])
     (by decide)).1,
   (max_value_metric (SparkSim.mk defaultSeed [("apple", 4), ("carrot", 2)] 3 [])
     (by decide)).2⟩

/-- C4: when the configuration document is malformed (the parse fails), the
system does not crash and the default five-node linear pipeline is built. -/
theorem malformed_config_uses_default (parsed : Option PipelineCfg)
    (h : parsed = none) :
    (buildFromPipeline (pipelineOf parsed)).nodes
        = [("read", some "source"), ("map1", some "transformation"),
           ("filter1", some "transformation"), ("reduce1", some "shuffle"),
           ("output", some "sink")]
    ∧ (buildFromPipeline (pipelineOf parsed)).edges
        = [("read", "map1"), ("map1", "filter1"),
           ("filter1", "reduce1"), ("reduce1", "output")] := by
  subst h
  decide

/-- Witness for `malformed_config_uses_default` at the concrete failed
parse. -/
theorem malformed_config_uses_default_witness :
    ((none : Option PipelineCfg) = none)
    ∧ (buildFromPipeline (pipelineOf none)).nodes
        = [("read", some "source"), ("map1", some "transformation"),
           ("filter1", some "transformation"), ("reduce1", some "shuffle"),
           ("output", some "sink")]
    ∧ (buildFromPipeline (pipelineOf none)).edges
        = [("read", "map1"), ("map1", "filter1"),
           ("filter1", "reduce1"), ("reduce1", "output")] :=
  ⟨rfl, (malformed_config_uses_default none rfl).1,
    (malformed_config_uses_default none rfl).2⟩
